import Mathlib

/-!
Verification of the mysql-sqlite-to-d1 migration pipeline.

The JavaScript sources are shallowly embedded over `List Char` (one JS string
is one `List Char`).  Each definition mirrors one function of the repository:

* `escapeForSQLite`, `mapMySQLTypeToSQLite`, `formatMySQLDateTime`,
  `generateSQLFile` … from `src/mysql-to-sqlite.js`;
* `parseSQLFile`, `createBatches`, `cleanD1Database`'s drop list … from the
  unnamed migration driver (`src/unnamed/part_000`);
* `CloudflareD1API.parseSQLFile`, the batch slicing of `uploadSQLFile` … from
  `src/cloudflare-d1-api.js`;
* `pollImport` … from `src/test-d1-connection.js`.
-/

namespace Mig

/-- Whitespace characters stripped by JavaScript `String.prototype.trim`
(ASCII subset; the sources only ever produce ASCII whitespace). -/
def isJSWhitespace (c : Char) : Bool :=
  c = ' ' || c = '\t' || c = '\n' || c = '\r' || c = '\x0b' || c = '\x0c'

/-- Strip leading JS whitespace. -/
def trimLeft : List Char → List Char
  | [] => []
  | c :: cs => if isJSWhitespace c then trimLeft cs else c :: cs

/-- Strip trailing JS whitespace. -/
def trimRight (l : List Char) : List Char :=
  (trimLeft l.reverse).reverse

/-- JS `String.prototype.trim`. -/
def trim (l : List Char) : List Char :=
  trimRight (trimLeft l)

/-- JS `String.prototype.includes`: substring test. -/
def includesSub (hay needle : List Char) : Bool :=
  match hay with
  | [] => needle.isEmpty
  | _ :: t => needle.isPrefixOf hay || includesSub t needle

/-- JS `String.prototype.split(newline)`. -/
def splitOnNL : List Char → List (List Char)
  | [] => [[]]
  | c :: rest =>
    if c = '\n' then [] :: splitOnNL rest
    else
      match splitOnNL rest with
      | [] => [[c]]
      | h :: t => (c :: h) :: t

/-- JS `Array.prototype.join(newline)`. -/
def joinWithNewline : List (List Char) → List Char
  | [] => []
  | [s] => s
  | s :: rest => s ++ '\n' :: joinWithNewline rest

/-- JS `String.prototype.toLowerCase` (ASCII; type keywords are ASCII). -/
def toLowerStr (l : List Char) : List Char :=
  l.map Char.toLower

/-! ## Batching Engine (`createBatches` in `src/unnamed/part_000`, and the
`statements.slice(i, i + batchSize)` loop of `uploadSQLFile` in
`src/cloudflare-d1-api.js`)

The JS loop `for (let i = 0; i < statements.length; i += batchSize)` takes
successive slices of `batchSize` statements.  For `batchSize = 0` the JS loop
would never terminate; the model returns `[]` there, and every theorem about
it assumes `0 < batchSize`. -/

/-- The successive slices `statements.slice(i, i + batchSize)`. -/
def createBatchSlices (statements : List α) (batchSize : Nat) : List (List α) :=
  if h : batchSize = 0 ∨ statements.isEmpty = true then []
  else (statements.take batchSize) :: createBatchSlices (statements.drop batchSize) batchSize
termination_by statements.length
decreasing_by
  push_neg at h
  simp only [List.length_drop]
  rcases h with ⟨h0, hne⟩
  have : 0 < statements.length := by
    cases statements with
    | nil => simp at hne
    | cons a t => simp
  omega

/-- `createBatches(statements, batchSize)` from `src/unnamed/part_000`:
each slice is joined into one newline-separated string. -/
def createBatches (statements : List (List Char)) (batchSize : Nat) : List (List Char) :=
  (createBatchSlices statements batchSize).map joinWithNewline

theorem createBatchSlices_nil (B : Nat) :
    createBatchSlices ([] : List α) B = [] := by
  rw [createBatchSlices]
  simp

theorem createBatchSlices_cons (B : Nat) (hB : B ≠ 0) (l : List α) (hl : l ≠ []) :
    createBatchSlices l B = l.take B :: createBatchSlices (l.drop B) B := by
  rw [createBatchSlices]
  rw [dif_neg (by simp [hB, hl])]

theorem createBatchSlices_join (B : Nat) (hB : B ≠ 0) (l : List α) :
    (createBatchSlices l B).flatten = l := by
  generalize hn : l.length = n
  induction n using Nat.strong_induction_on generalizing l with
  | _ n ih =>
    by_cases hl : l = []
    · simp [hl, createBatchSlices_nil]
    · rw [createBatchSlices_cons B hB l hl, List.flatten_cons]
      have hlen : (l.drop B).length < n := by
        subst hn
        simp only [List.length_drop]
        have : 0 < l.length := List.length_pos.mpr hl
        omega
      rw [ih _ hlen _ rfl]
      exact List.take_append_drop B l

theorem createBatchSlices_length (B : Nat) (hB : B ≠ 0) (l : List α) :
    (createBatchSlices l B).length = (l.length + B - 1) / B := by
  generalize hn : l.length = n
  induction n using Nat.strong_induction_on generalizing l with
  | _ n ih =>
    by_cases hl : l = []
    · subst hl
      rw [createBatchSlices_nil]
      subst hn
      simp only [List.length_nil]
      rw [Nat.div_eq_of_lt (by omega)]
    · rw [createBatchSlices_cons B hB l hl]
      have hpos : 0 < l.length := List.length_pos.mpr hl
      have hlen : (l.drop B).length < n := by
        subst hn
        simp only [List.length_drop]
        omega
      rw [List.length_cons, ih _ hlen _ rfl]
      simp only [List.length_drop]
      subst hn
      rcases Nat.lt_or_ge l.length B with hsm | hlg
      · have h1 : l.length - B = 0 := by omega
        rw [h1]
        have h2 : (0 + B - 1) / B = 0 := Nat.div_eq_of_lt (by omega)
        have h3 : (l.length + B - 1) / B = 1 :=
          Nat.div_eq_of_lt_le (by omega) (by omega)
        omega
      · have h1 : l.length - B + B - 1 = l.length - 1 := by omega
        have h2 : l.length + B - 1 = (l.length - 1) + B := by omega
        rw [h1, h2, Nat.add_div_right _ (by omega)]

theorem createBatchSlices_ne_nil (B : Nat) (hB : B ≠ 0) (l : List α) :
    ∀ b ∈ createBatchSlices l B, b ≠ [] := by
  generalize hn : l.length = n
  induction n using Nat.strong_induction_on generalizing l with
  | _ n ih =>
    by_cases hl : l = []
    · simp [hl, createBatchSlices_nil]
    · rw [createBatchSlices_cons B hB l hl]
      intro b hb
      rcases List.mem_cons.mp hb with h | h
      · subst h
        simp only [ne_eq, List.take_eq_nil_iff]
        push_neg
        exact ⟨hB, hl⟩
      · have hlen : (l.drop B).length < n := by
          subst hn
          simp only [List.length_drop]
          have : 0 < l.length := List.length_pos.mpr hl
          omega
        exact ih _ hlen _ rfl b h

/-- C3: for every list of N statements and every batch size B > 0 the
Batching Engine produces exactly ceil(N/B) batches, each non-empty, whose
statement-for-statement concatenation is the original list; `createBatches`
is exactly those slices, each joined with newlines. -/
theorem createBatches_spec (l : List (List Char)) (B : Nat) (hB : 0 < B) :
    (createBatchSlices l B).length = (l.length + B - 1) / B ∧
    (∀ b ∈ createBatchSlices l B, b ≠ []) ∧
    (createBatchSlices l B).flatten = l ∧
    createBatches l B = (createBatchSlices l B).map joinWithNewline := by
  refine ⟨createBatchSlices_length B (by omega) l,
    createBatchSlices_ne_nil B (by omega) l,
    createBatchSlices_join B (by omega) l, rfl⟩

/-- Witness for C3 at the concrete list [[a],[b],[c]] and B = 2. -/
theorem createBatches_spec_witness :
    (createBatchSlices [['a'], ['b'], ['c']] 2).flatten = [['a'], ['b'], ['c']] :=
  (createBatches_spec [['a'], ['b'], ['c']] 2 (by decide)).2.2.1

/-! ## Destination cleaning (`cleanD1Database` in `src/unnamed/part_000`)

`cleanD1Database` enumerates the destination tables and drops
`existingTables.filter(table => table !== '_cf_KV')`, issuing
`DROP TABLE IF EXISTS "<table>";` for each. -/

/-- The reserved D1 system table name. -/
def cfKV : List Char := "_cf_KV".data

/-- `existingTables.filter(table => table !== '_cf_KV')`. -/
def cleanD1TablesToDrop (existingTables : List (List Char)) : List (List Char) :=
  existingTables.filter (fun table => table != cfKV)

/-- The DROP statements issued by the cleaning loop. -/
def cleanD1DropStatements (existingTables : List (List Char)) : List (List Char) :=
  (cleanD1TablesToDrop existingTables).map
    (fun table => "DROP TABLE IF EXISTS \"".data ++ table ++ "\";".data)

/-- C5: the cleaning phase never drops the reserved system table: every table
name in the drop list differs from `_cf_KV`, and no issued DROP statement is
the DROP of `_cf_KV`, whatever table list the destination enumerates. -/
theorem cleanD1Database_never_drops_cfKV (existingTables : List (List Char)) :
    (∀ t ∈ cleanD1TablesToDrop existingTables, t ≠ cfKV) ∧
    (∀ s ∈ cleanD1DropStatements existingTables,
      s ≠ "DROP TABLE IF EXISTS \"".data ++ cfKV ++ "\";".data) := by
  constructor
  · intro t ht
    have := List.of_mem_filter ht
    simpa using this
  · intro s hs
    rcases List.mem_map.mp hs with ⟨t, ht, rfl⟩
    have hne : t ≠ cfKV := by
      have := List.of_mem_filter ht
      simpa using this
    intro heq
    apply hne
    have heq' : "DROP TABLE IF EXISTS \"".data ++ t ++ "\";".data
        = "DROP TABLE IF EXISTS \"".data ++ cfKV ++ "\";".data := heq
    exact List.append_cancel_left (List.append_cancel_right heq')

/-- Witness for C5: with `_cf_KV` present in the enumerated list, the table
that is dropped is not `_cf_KV`. -/
theorem cleanD1Database_never_drops_cfKV_witness : "users".data ≠ cfKV :=
  (cleanD1Database_never_drops_cfKV [cfKV, "users".data]).1 "users".data (by decide)

/-! ## Type Mapper (`mapMySQLTypeToSQLite` in `src/mysql-to-sqlite.js`)

`if (!mysqlType) return 'TEXT'` treats the empty string (and null) as falsy;
then the lowercased type string is probed with `includes`, first match wins. -/

/-- `mapMySQLTypeToSQLite(mysqlType)`.  A null argument behaves like the
empty string (both are falsy in JS, both hit the first return). -/
def mapMySQLTypeToSQLite (mysqlType : List Char) : List Char :=
  if mysqlType.isEmpty = true then "TEXT".data
  else
    let type := toLowerStr mysqlType
    if includesSub type "tinyint(1)".data then "INTEGER".data
    else if includesSub type "int".data then "INTEGER".data
    else if includesSub type "bigint".data then "INTEGER".data
    else if includesSub type "smallint".data then "INTEGER".data
    else if includesSub type "mediumint".data then "INTEGER".data
    else if includesSub type "char".data || includesSub type "text".data
        || includesSub type "enum".data || includesSub type "set".data then "TEXT".data
    else if includesSub type "json".data then "TEXT".data
    else if includesSub type "float".data || includesSub type "double".data
        || includesSub type "decimal".data || includesSub type "numeric".data then "REAL".data
    else if includesSub type "bool".data then "INTEGER".data
    else if includesSub type "date".data || includesSub type "time".data
        || includesSub type "timestamp".data || includesSub type "year".data then "TEXT".data
    else if includesSub type "blob".data || includesSub type "binary".data then "BLOB".data
    else "TEXT".data

theorem includesSub_iff (hay needle : List Char) :
    includesSub hay needle = true ↔ needle <:+: hay := by
  induction hay with
  | nil =>
    simp [includesSub, List.isEmpty_iff, List.infix_nil]
  | cons a t ih =>
    simp only [includesSub, Bool.or_eq_true, ih, List.isPrefixOf_iff_prefix]
    constructor
    · rintro (h | h)
      · exact h.isInfix
      · exact h.trans (List.suffix_cons a t).isInfix
    · intro h
      rcases h with ⟨s, u, hsu⟩
      cases s with
      | nil =>
        left
        exact ⟨u, by simpa using hsu⟩
      | cons b s' =>
        right
        exact ⟨s', u, by simpa using congrArg List.tail hsu⟩

theorem includesSub_trans {hay n1 n2 : List Char}
    (h : includesSub hay n1 = true) (hsub : n2 <:+: n1) :
    includesSub hay n2 = true := by
  rw [includesSub_iff] at h ⊢
  exact hsub.trans h

theorem includesSub_false_of_sub {hay n1 n2 : List Char}
    (h : includesSub hay n1 = false) (hsub : n1 <:+: n2) :
    includesSub hay n2 = false := by
  rw [Bool.eq_false_iff] at h ⊢
  exact fun hq => h (includesSub_trans hq hsub)

/-- C4: every source type string containing an integer-family keyword maps to
INTEGER, and every source type string containing a text-family keyword and no
integer-, real-, or blob-family keyword maps to TEXT. -/
theorem mapMySQLTypeToSQLite_spec (t : List Char) :
    ((includesSub (toLowerStr t) "int".data = true ∨
      includesSub (toLowerStr t) "bigint".data = true ∨
      includesSub (toLowerStr t) "smallint".data = true ∨
      includesSub (toLowerStr t) "mediumint".data = true) →
      mapMySQLTypeToSQLite t = "INTEGER".data) ∧
    ((includesSub (toLowerStr t) "char".data = true ∨
      includesSub (toLowerStr t) "text".data = true ∨
      includesSub (toLowerStr t) "enum".data = true ∨
      includesSub (toLowerStr t) "set".data = true) →
      includesSub (toLowerStr t) "int".data = false →
      includesSub (toLowerStr t) "float".data = false →
      includesSub (toLowerStr t) "double".data = false →
      includesSub (toLowerStr t) "decimal".data = false →
      includesSub (toLowerStr t) "numeric".data = false →
      includesSub (toLowerStr t) "blob".data = false →
      includesSub (toLowerStr t) "binary".data = false →
      mapMySQLTypeToSQLite t = "TEXT".data) := by
  constructor
  · intro h
    have hint : includesSub (toLowerStr t) "int".data = true := by
      rcases h with h | h | h | h
      · exact h
      · exact includesSub_trans h (by decide)
      · exact includesSub_trans h (by decide)
      · exact includesSub_trans h (by decide)
    have hne : ¬(t.isEmpty = true) := by
      intro hE
      rw [List.isEmpty_iff] at hE
      subst hE
      simp [toLowerStr, includesSub] at hint
    simp only [mapMySQLTypeToSQLite]
    rw [if_neg hne]
    by_cases h1 : includesSub (toLowerStr t) "tinyint(1)".data = true
    · rw [if_pos h1]
    · rw [if_neg h1, if_pos hint]
  · intro htext hint hfl hdb hdec hnum hblob hbin
    have hne : ¬(t.isEmpty = true) := by
      intro hE
      rw [List.isEmpty_iff] at hE
      subst hE
      rcases htext with h | h | h | h <;> simp [toLowerStr, includesSub] at h
    have h1 : includesSub (toLowerStr t) "tinyint(1)".data = false :=
      includesSub_false_of_sub hint (by decide)
    have hbig : includesSub (toLowerStr t) "bigint".data = false :=
      includesSub_false_of_sub hint (by decide)
    have hsmall : includesSub (toLowerStr t) "smallint".data = false :=
      includesSub_false_of_sub hint (by decide)
    have hmed : includesSub (toLowerStr t) "mediumint".data = false :=
      includesSub_false_of_sub hint (by decide)
    have htext' : (includesSub (toLowerStr t) "char".data
        || includesSub (toLowerStr t) "text".data
        || includesSub (toLowerStr t) "enum".data
        || includesSub (toLowerStr t) "set".data) = true := by
      rcases htext with h | h | h | h <;> simp [h]
    simp only [mapMySQLTypeToSQLite]
    rw [if_neg hne, if_neg (by simp [h1]), if_neg (by simp [hint]),
      if_neg (by simp [hbig]), if_neg (by simp [hsmall]), if_neg (by simp [hmed]),
      if_pos htext']

/-- Witness for C4: `bigint(20)` maps to INTEGER and `varchar(255)` to TEXT. -/
theorem mapMySQLTypeToSQLite_spec_witness :
    mapMySQLTypeToSQLite "bigint(20)".data = "INTEGER".data ∧
    mapMySQLTypeToSQLite "varchar(255)".data = "TEXT".data :=
  ⟨(mapMySQLTypeToSQLite_spec "bigint(20)".data).1 (Or.inr (Or.inl (by decide))),
   (mapMySQLTypeToSQLite_spec "varchar(255)".data).2 (Or.inl (by decide))
     (by decide) (by decide) (by decide) (by decide) (by decide) (by decide) (by decide)⟩

/-! ## Value Encoder (`escapeForSQLite` in `src/mysql-to-sqlite.js`)

The chain of `String.prototype.replace` calls is modelled replacement by
replacement, in source order.  JS global `replace` scans left to right,
non-overlapping. -/

/-- Global single-character replacement `replace(/c/g, r)`. -/
def replChar (c : Char) (r : List Char) : List Char → List Char
  | [] => []
  | x :: xs => (if x = c then r else [x]) ++ replChar c r xs

/-- `replace` of the two-character Windows line ending with backslash-n. -/
def replCRLF : List Char → List Char
  | '\r' :: '\n' :: rest => '\\' :: 'n' :: replCRLF rest
  | x :: rest => x :: replCRLF rest
  | [] => []

/-- Lowercase hex digit, as produced by `toString(16)`. -/
def hexDigit (n : Nat) : Char :=
  if n < 10 then Char.ofNat ('0'.toNat + n) else Char.ofNat ('a'.toNat + (n - 10))

/-- The control characters of the final catch-all character class
`[\x01-\x08\x0B-\x0C\x0E-\x1F\x7F]`. -/
def isEscCtrl (c : Char) : Bool :=
  decide ((0x01 ≤ c.toNat ∧ c.toNat ≤ 0x08) ∨ (0x0B ≤ c.toNat ∧ c.toNat ≤ 0x0C)
    ∨ (0x0E ≤ c.toNat ∧ c.toNat ≤ 0x1F) ∨ c.toNat = 0x7F)

/-- `'\\x' + charCodeAt(0).toString(16).padStart(2, '0')`. -/
def hexEscape (c : Char) : List Char :=
  ['\\', 'x', hexDigit (c.toNat / 16), hexDigit (c.toNat % 16)]

/-- The catch-all control-character replacement. -/
def replCtrl : List Char → List Char
  | [] => []
  | x :: xs => (if isEscCtrl x then hexEscape x else [x]) ++ replCtrl xs

/-- The string path of `escapeForSQLite`: the replace chain applied in
source order, result wrapped in single quotes. -/
def escapeForSQLiteString (stringValue : List Char) : List Char :=
  let s1 := replChar '\'' ['\'', '\''] stringValue
  let s2 := replCRLF s1
  let s3 := replChar '\n' ['\\', 'n'] s2
  let s4 := replChar '\r' ['\\', 'r'] s3
  let s5 := replChar '\t' ['\\', 't'] s4
  let s6 := replChar '\\' ['\\', '\\'] s5
  let s7 := replChar '\x00' ['\\', '0'] s6
  let s8 := replChar '\x0b' ['\\', 'v'] s7
  let s9 := replChar '\x0c' ['\\', 'f'] s8
  let s10 := replCtrl s9
  '\'' :: s10 ++ ['\'']

/-- The dynamic values the migrator reads from MySQL rows, as dispatched by
`escapeForSQLite`.  JS numbers only ever carry integral DB values here, so
they are modelled as `Int`. -/
inductive JSValue where
  | null : JSValue
  | num : Int → JSValue
  | bool : Bool → JSValue
  | str : List Char → JSValue
deriving DecidableEq

/-- `escapeForSQLite(value)`: null → NULL, number → decimal text,
boolean → 1/0, everything else is stringified and escaped. -/
def escapeForSQLite (value : JSValue) : List Char :=
  match value with
  | .null => "NULL".data
  | .num n => (toString n).data
  | .bool b => if b then "1".data else "0".data
  | .str s => escapeForSQLiteString s

/-- C1: evaluating the Value Encoder at the three-character string
quote, backslash, newline.  Because the backslash-doubling replace runs
after the newline substitution, the backslash introduced for the newline is
itself doubled: the encoded literal contains four backslashes before the
`n`, not the three the claim (and the code's own comment
"don't double-escape") requires. -/
theorem escapeForSQLite_backslash_newline_bug :
    escapeForSQLite (.str ['\'', '\\', '\n'])
      = ['\'', '\'', '\'', '\\', '\\', '\\', '\\', 'n', '\''] ∧
    escapeForSQLite (.str ['\'', '\\', '\n'])
      ≠ ['\'', '\'', '\'', '\\', '\\', '\\', 'n', '\''] := by
  constructor <;> decide

/-! ## Statement Stream Parser, line-level variant (`parseSQLFile` in
`src/unnamed/part_000`, lines 28-69)

The loop scans lines, skips blank, `--` and `PRAGMA` lines, accumulates the
raw line plus a newline into `currentStatement`, and closes a statement when
the trimmed line ends with a semicolon.  The `inMultiLineStatement` flag is
assigned but never read, so it is not part of the state. -/

/-- One iteration of the statement-accumulation loop.  State: statements
pushed so far and the pending `currentStatement`. -/
def parseSQLFileStep (st : List (List Char) × List Char) (line : List Char) :
    List (List Char) × List Char :=
  let trimmedLine := trim line
  if trimmedLine.isEmpty || "--".data.isPrefixOf trimmedLine
      || "PRAGMA".data.isPrefixOf trimmedLine then
    st
  else
    let currentStatement := st.2 ++ line ++ ['\n']
    if [';'].isSuffixOf trimmedLine then
      (if (trim currentStatement).isEmpty then st.1
       else st.1 ++ [trim currentStatement], [])
    else
      (st.1, currentStatement)

/-- `parseSQLFile` of the unnamed driver, on the file content. -/
def parseSQLFile (content : List Char) : List (List Char) :=
  let res := (splitOnNL content).foldl parseSQLFileStep ([], [])
  if (trim res.2).isEmpty then res.1 else res.1 ++ [trim res.2]

/-! ## Statement Stream Parser, quote-aware variant
(`parseSQLFile` method of `CloudflareD1API` in `src/cloudflare-d1-api.js`)

Character-level scan with string state (`inString`, `stringChar`) and block
comment state.  JS represents the cleared `stringChar` as the empty string;
the model uses the NUL character, which can never match a scanned char of a
string literal opener. -/

/-- Parser state of the quote-aware variant. -/
structure D1ParseState where
  statements : List (List Char)
  currentStatement : List Char
  inString : Bool
  stringChar : Char
  inComment : Bool
deriving DecidableEq

/-- One character of the inner `for` loop; `prev` is `line[i-1]` (none at
the start of a line). -/
def d1Step (st : D1ParseState) (prev : Option Char) (c : Char) : D1ParseState :=
  if st.inString = false then
    if c = '"' || c = '\'' || c = Char.ofNat 96 then
      { st with inString := true, stringChar := c, currentStatement := st.currentStatement ++ [c] }
    else if c = ';' then
      if (trim st.currentStatement).isEmpty = false then
        { st with statements := st.statements ++ [trim st.currentStatement], currentStatement := [] }
      else st
    else
      { st with currentStatement := st.currentStatement ++ [c] }
  else
    if c = st.stringChar && prev != some '\\' then
      { st with inString := false, stringChar := Char.ofNat 0, currentStatement := st.currentStatement ++ [c] }
    else
      { st with currentStatement := st.currentStatement ++ [c] }

/-- The character loop over (the remainder of) one line. -/
def d1Chars (st : D1ParseState) (prev : Option Char) : List Char → D1ParseState
  | [] => st
  | c :: rest => d1Chars (d1Step st prev c) (some c) rest

/-- Everything after the first block-comment terminator
(`line.substring(line.indexOf(star-slash) + 2)`). -/
def afterBlockCommentClose : List Char → List Char
  | '*' :: '/' :: rest => rest
  | _ :: rest => afterBlockCommentClose rest
  | [] => []

/-- One line of the quote-aware parser: trim, skip blanks and `--`/`#`
comments, handle block comments, then scan characters; a space joins the
lines of a multi-line statement. -/
def d1Line (st : D1ParseState) (line0 : List Char) : D1ParseState :=
  let line := trim line0
  if line.isEmpty then st
  else if "--".data.isPrefixOf line || "#".data.isPrefixOf line then st
  else
    let st1 := if includesSub line "/*".data then { st with inComment := true } else st
    if st1.inComment then
      if includesSub line "*/".data then
        let st2 := d1Chars { st1 with inComment := false } none (afterBlockCommentClose line)
        { st2 with currentStatement := st2.currentStatement ++ [' '] }
      else st1
    else
      let st2 := d1Chars st1 none line
      { st2 with currentStatement := st2.currentStatement ++ [' '] }

/-- `CloudflareD1API.prototype.parseSQLFile(sqlContent)`. -/
def CloudflareD1API.parseSQLFile (sqlContent : List Char) : List (List Char) :=
  let st := (splitOnNL sqlContent).foldl d1Line ⟨[], [], false, Char.ofNat 0, false⟩
  let statements :=
    if (trim st.currentStatement).isEmpty = false
    then st.statements ++ [trim st.currentStatement]
    else st.statements
  statements.filter (fun stmt => decide (0 < stmt.length))

/-- C2 counterexample: on the stream built from the single well-formed
statement `SELECT 1;`, the quote-aware parser of the D1 API client returns
`SELECT 1` — the terminating semicolon is consumed as a separator and never
re-attached — so parsing is not a left inverse of stream construction for
that variant. -/
theorem d1_parseSQLFile_not_left_inverse :
    CloudflareD1API.parseSQLFile (joinWithNewline ["SELECT 1;".data])
      = ["SELECT 1".data] ∧
    CloudflareD1API.parseSQLFile (joinWithNewline ["SELECT 1;".data])
      ≠ ["SELECT 1;".data] := by
  constructor <;> decide

/-! ## Elementary facts about `trim` -/

theorem trimLeft_suffix (l : List Char) : trimLeft l <:+ l := by
  induction l with
  | nil => exact List.suffix_rfl
  | cons c cs ih =>
    rw [trimLeft]
    by_cases hc : isJSWhitespace c = true
    · rw [if_pos hc]
      exact ih.trans (List.suffix_cons c cs)
    · rw [if_neg hc]

theorem trimRight_prefix_self (l : List Char) : trimRight l <+: l := by
  have h := (List.reverse_prefix).mpr (trimLeft_suffix l.reverse)
  simpa [trimRight] using h

theorem trimLeft_append (l m : List Char) :
    trimLeft (l ++ m) = if trimLeft l = [] then trimLeft m else trimLeft l ++ m := by
  induction l with
  | nil => simp [trimLeft]
  | cons c cs ih =>
    by_cases hc : isJSWhitespace c = true
    · simp only [List.cons_append, trimLeft, if_pos hc]
      exact ih
    · simp only [List.cons_append, trimLeft, if_neg hc]
      rw [if_neg (by simp)]
      rfl

theorem trimLeft_eq_nil_iff (l : List Char) :
    trimLeft l = [] ↔ ∀ c ∈ l, isJSWhitespace c = true := by
  induction l with
  | nil => simp [trimLeft]
  | cons c cs ih =>
    rw [trimLeft]
    by_cases hc : isJSWhitespace c = true
    · simp [hc, ih]
    · simp [hc]

theorem trimLeft_decomp (l : List Char) :
    ∃ w, (∀ c ∈ w, isJSWhitespace c = true) ∧ l = w ++ trimLeft l := by
  induction l with
  | nil => exact ⟨[], by simp, by simp [trimLeft]⟩
  | cons c cs ih =>
    rw [trimLeft]
    by_cases hc : isJSWhitespace c = true
    · rcases ih with ⟨w, hw, hl⟩
      rw [if_pos hc]
      refine ⟨c :: w, ?_, by simpa using hl⟩
      intro x hx
      rcases List.mem_cons.mp hx with h | h
      · subst h; exact hc
      · exact hw x h
    · rw [if_neg hc]
      exact ⟨[], by simp, by simp⟩

theorem trimRight_decomp (l : List Char) :
    ∃ w, (∀ c ∈ w, isJSWhitespace c = true) ∧ l = trimRight l ++ w := by
  rcases trimLeft_decomp l.reverse with ⟨w, hw, hl⟩
  refine ⟨w.reverse, ?_, ?_⟩
  · intro c hc
    exact hw c (List.mem_reverse.mp hc)
  · have := congrArg List.reverse hl
    simpa [trimRight] using this

theorem trimRight_append_ws (l : List Char) (c : Char) (hc : isJSWhitespace c = true) :
    trimRight (l ++ [c]) = trimRight l := by
  simp [trimRight, List.reverse_append, trimLeft, hc]

theorem trim_eq_self (l : List Char) (h : trim l = l) :
    trimLeft l = l ∧ trimRight l = l := by
  have h1 : (trimLeft l).length ≤ l.length := (trimLeft_suffix l).length_le
  have h2 : (trimRight (trimLeft l)).length ≤ (trimLeft l).length :=
    (trimRight_prefix_self (trimLeft l)).length_le
  have hl : trim l = trimRight (trimLeft l) := rfl
  rw [hl] at h
  have hlen : (trimLeft l).length = l.length := by
    have := congrArg List.length h
    omega
  have hL : trimLeft l = l := (trimLeft_suffix l).eq_of_length hlen
  refine ⟨hL, ?_⟩
  rw [hL] at h
  exact h

theorem prefix_split {p a b : List Char} (h : p <+: a ++ b) :
    p <+: a ∨ ∃ q, q ≠ [] ∧ q <+: b ∧ p = a ++ q := by
  rcases le_or_lt p.length a.length with hle | hlt
  · left
    exact List.prefix_of_prefix_length_le h (List.prefix_append a b) hle
  · right
    have hp : p = (a ++ b).take p.length := (List.prefix_iff_eq_take).mp h
    rw [List.take_append_eq_append_take] at hp
    rw [List.take_of_length_le (by omega)] at hp
    refine ⟨b.take (p.length - a.length), ?_, List.take_prefix _ b, hp⟩
    have hpl : p.length ≤ a.length + b.length := by
      have := h.length_le
      simpa using this
    simp only [ne_eq, List.take_eq_nil_iff]
    push_neg
    constructor
    · omega
    · intro hb
      subst hb
      simp at hpl
      omega

theorem prefix_trimRight_of_wsFree {p u : List Char}
    (hws : ∀ c ∈ p, isJSWhitespace c = false) (h : p <+: u) :
    p <+: trimRight u := by
  rcases trimRight_decomp u with ⟨w, hw, hu⟩
  rw [hu] at h
  rcases prefix_split h with h1 | ⟨q, hq, hqw, hpq⟩
  · exact h1
  · exfalso
    rcases q with _ | ⟨c, q'⟩
    · exact hq rfl
    · have hcw : c ∈ w := hqw.subset (by simp)
      have hcp : c ∈ p := by
        rw [hpq]
        simp
      have := hws c hcp
      rw [hw c hcw] at this
      simp at this

theorem blocked_start {p line : List Char}
    (hws : ∀ c ∈ p, isJSWhitespace c = false)
    (hnp : ¬ p <+: trim line) :
    ∀ rest, ¬ p <+: (trimLeft line ++ '\n' :: rest) := by
  intro rest hpre
  rcases prefix_split hpre with h1 | ⟨q, hq, hqr, hpq⟩
  · exact hnp (prefix_trimRight_of_wsFree hws h1)
  · rcases q with _ | ⟨c, q'⟩
    · exact hq rfl
    · have hc : c = '\n' := by
        rcases hqr with ⟨r, hr⟩
        simpa using congrArg List.head? hr
      have hcp : c ∈ p := by
        rw [hpq]
        simp
      have := hws c hcp
      rw [hc] at this
      simp [isJSWhitespace] at this

/-! ## C10: parsed statements never start with a comment marker or PRAGMA -/

/-- A parsed statement neither starts with the line-comment marker nor with
the PRAGMA keyword. -/
def goodStmt (s : List Char) : Prop :=
  ¬ "--".data <+: s ∧ ¬ "PRAGMA".data <+: s

/-- Invariant on the pending statement of the line-level parser: it is empty
or opens with a kept line, so that however it grows it can never acquire a
comment or pragma prefix. -/
def blockedCur (cur : List Char) : Prop :=
  cur = [] ∨ (trimLeft cur ≠ [] ∧
    ∀ rest, ¬ "--".data <+: (trimLeft cur ++ rest) ∧
      ¬ "PRAGMA".data <+: (trimLeft cur ++ rest))

theorem not_prefix_trim_of_blocked {p cur : List Char}
    (hbl : ∀ rest, ¬ p <+: (trimLeft cur ++ rest)) : ¬ p <+: trim cur := by
  intro hp
  have h1 : p <+: trimLeft cur := hp.trans (trimRight_prefix_self (trimLeft cur))
  have h2 := hbl []
  rw [List.append_nil] at h2
  exact h2 h1

theorem parseSQLFileStep_invariant (st : List (List Char) × List Char)
    (line : List Char) (h1 : ∀ s ∈ st.1, goodStmt s) (h2 : blockedCur st.2) :
    (∀ s ∈ (parseSQLFileStep st line).1, goodStmt s) ∧
    blockedCur (parseSQLFileStep st line).2 := by
  simp only [parseSQLFileStep]
  by_cases hskip : ((trim line).isEmpty || "--".data.isPrefixOf (trim line)
      || "PRAGMA".data.isPrefixOf (trim line)) = true
  · rw [if_pos hskip]
    exact ⟨h1, h2⟩
  · rw [if_neg hskip]
    have hne : trim line ≠ [] := by
      intro h0
      exact hskip (by simp [h0, List.isEmpty_iff])
    have hnc : ¬ "--".data <+: trim line := by
      intro hp
      exact hskip (by simp [List.isPrefixOf_iff_prefix, hp])
    have hnp : ¬ "PRAGMA".data <+: trim line := by
      intro hp
      exact hskip (by simp [List.isPrefixOf_iff_prefix, hp])
    have hLl : trimLeft line ≠ [] := by
      intro h0
      apply hne
      show trimRight (trimLeft line) = []
      rw [h0]
      rfl
    have hblk : trimLeft (st.2 ++ line ++ ['\n']) ≠ [] ∧
        ∀ rest, ¬ "--".data <+: (trimLeft (st.2 ++ line ++ ['\n']) ++ rest) ∧
          ¬ "PRAGMA".data <+: (trimLeft (st.2 ++ line ++ ['\n']) ++ rest) := by
      rcases h2 with hnil | ⟨hcne, hbl⟩
      · rw [hnil, List.nil_append]
        have hta : trimLeft (line ++ ['\n']) = trimLeft line ++ ['\n'] := by
          rw [trimLeft_append, if_neg hLl]
        rw [hta]
        refine ⟨by simp, ?_⟩
        intro rest
        have hg : (trimLeft line ++ ['\n']) ++ rest = trimLeft line ++ '\n' :: rest := by
          simp
        rw [hg]
        exact ⟨blocked_start (by decide) hnc rest, blocked_start (by decide) hnp rest⟩
      · have hassoc : st.2 ++ line ++ ['\n'] = st.2 ++ (line ++ ['\n']) := by simp
        rw [hassoc, trimLeft_append, if_neg hcne]
        refine ⟨by simp [hcne], ?_⟩
        intro rest
        have hg : (trimLeft st.2 ++ (line ++ ['\n'])) ++ rest
            = trimLeft st.2 ++ ((line ++ ['\n']) ++ rest) := by simp
        rw [hg]
        exact hbl _
    have hgood : goodStmt (trim (st.2 ++ line ++ ['\n'])) :=
      ⟨not_prefix_trim_of_blocked (fun rest => (hblk.2 rest).1),
       not_prefix_trim_of_blocked (fun rest => (hblk.2 rest).2)⟩
    by_cases hsemi : [';'].isSuffixOf (trim line) = true
    · rw [if_pos hsemi]
      refine ⟨?_, Or.inl rfl⟩
      intro s hs
      by_cases hemp : (trim (st.2 ++ line ++ ['\n'])).isEmpty = true
      · rw [if_pos hemp] at hs
        exact h1 s hs
      · rw [if_neg hemp] at hs
        rcases List.mem_append.mp hs with h | h
        · exact h1 s h
        · rw [List.mem_singleton] at h
          subst h
          exact hgood
    · rw [if_neg hsemi]
      exact ⟨h1, Or.inr hblk⟩

theorem parseSQLFile_fold_invariant (lines : List (List Char))
    (st : List (List Char) × List Char)
    (h1 : ∀ s ∈ st.1, goodStmt s) (h2 : blockedCur st.2) :
    (∀ s ∈ (lines.foldl parseSQLFileStep st).1, goodStmt s) ∧
    blockedCur (lines.foldl parseSQLFileStep st).2 := by
  induction lines generalizing st with
  | nil => exact ⟨h1, h2⟩
  | cons l ls ih =>
    rw [List.foldl_cons]
    have hstep := parseSQLFileStep_invariant st l h1 h2
    exact ih _ hstep.1 hstep.2

/-- C10: every statement returned by the driver's line-level `parseSQLFile`
starts with neither `--` nor `PRAGMA`; in particular the generated file's
own foreign-key pragma line is never among the parsed statements. -/
theorem parseSQLFile_no_comment_no_pragma (content : List Char) :
    (∀ s ∈ parseSQLFile content,
      ¬ "--".data <+: s ∧ ¬ "PRAGMA".data <+: s) ∧
    "PRAGMA foreign_keys = OFF;".data ∉ parseSQLFile content := by
  have hinv := parseSQLFile_fold_invariant (splitOnNL content) ([], [])
    (by simp) (Or.inl rfl)
  have hmain : ∀ s ∈ parseSQLFile content, goodStmt s := by
    intro s hs
    simp only [parseSQLFile] at hs
    by_cases hemp :
        (trim ((splitOnNL content).foldl parseSQLFileStep ([], [])).2).isEmpty = true
    · rw [if_pos hemp] at hs
      exact hinv.1 s hs
    · rw [if_neg hemp] at hs
      rcases List.mem_append.mp hs with h | h
      · exact hinv.1 s h
      · rw [List.mem_singleton] at h
        subst h
        rcases hinv.2 with hnil | ⟨hne, hbl⟩
        · rw [hnil] at hemp
          exact absurd rfl hemp
        · exact ⟨not_prefix_trim_of_blocked (fun rest => (hbl rest).1),
                 not_prefix_trim_of_blocked (fun rest => (hbl rest).2)⟩
  refine ⟨hmain, ?_⟩
  intro hmem
  exact (hmain _ hmem).2 (by decide)

/-- Witness for C10 on a concrete stream holding a pragma, a comment and one
statement. -/
theorem parseSQLFile_no_comment_no_pragma_witness :
    ¬ "--".data <+: "SELECT 1;".data ∧ ¬ "PRAGMA".data <+: "SELECT 1;".data :=
  (parseSQLFile_no_comment_no_pragma
    "PRAGMA foreign_keys = OFF;\n-- header\nSELECT 1;".data).1
    "SELECT 1;".data (by decide)

/-! ## C2: parsing as a left inverse of stream construction -/

theorem splitOnNL_no_newline (l : List Char) (h : '\n' ∉ l) : splitOnNL l = [l] := by
  induction l with
  | nil => rfl
  | cons c cs ih =>
    have hc : c ≠ '\n' := fun h0 => h (by simp [h0])
    rw [splitOnNL, if_neg hc, ih (fun hm => h (by simp [hm]))]

theorem splitOnNL_append (a b : List Char) (h : '\n' ∉ a) :
    splitOnNL (a ++ '\n' :: b) = a :: splitOnNL b := by
  induction a with
  | nil =>
    rw [List.nil_append, splitOnNL, if_pos rfl]
  | cons c cs ih =>
    have hc : c ≠ '\n' := fun h0 => h (by simp [h0])
    rw [List.cons_append, splitOnNL, if_neg hc, ih (fun hm => h (by simp [hm]))]

theorem splitOnNL_join (stmts : List (List Char)) (hne : stmts ≠ [])
    (h : ∀ s ∈ stmts, '\n' ∉ s) :
    splitOnNL (joinWithNewline stmts) = stmts := by
  induction stmts with
  | nil => exact absurd rfl hne
  | cons s rest ih =>
    cases rest with
    | nil =>
      rw [joinWithNewline]
      exact splitOnNL_no_newline s (h s (by simp))
    | cons s2 rest2 =>
      rw [joinWithNewline, splitOnNL_append _ _ (h s (by simp))]
      rw [ih (List.cons_ne_nil s2 rest2) (fun x hx => h x (by simp [hx]))]
      simp

theorem trim_append_newline (s : List Char) (hs : trim s = s) :
    trim (s ++ ['\n']) = s := by
  rcases trim_eq_self s hs with ⟨hL, hR⟩
  by_cases hnil : s = []
  · subst hnil
    decide
  · show trimRight (trimLeft (s ++ ['\n'])) = s
    rw [trimLeft_append, if_neg (by rw [hL]; exact hnil), hL]
    exact (trimRight_append_ws s '\n' (by decide)).trans hR

/-- A well-formed generated statement: a single already-trimmed non-blank
line that is not a comment or pragma line, holds no string-literal
characters and no block-comment opener, and ends in its only semicolon with
a non-blank body before it. -/
def wellFormedStmt (s : List Char) : Prop :=
  s ≠ [] ∧ trim s = s ∧ '\n' ∉ s ∧
  ¬ "--".data <+: s ∧ ¬ "PRAGMA".data <+: s ∧ ¬ "#".data <+: s ∧
  '"' ∉ s ∧ '\'' ∉ s ∧ Char.ofNat 96 ∉ s ∧
  includesSub s "/*".data = false ∧
  s.dropLast ≠ [] ∧ ';' ∉ s.dropLast ∧ s.getLast? = some ';'

instance (s : List Char) : Decidable (wellFormedStmt s) := by
  unfold wellFormedStmt
  infer_instance

theorem eq_dropLast_append_last {s : List Char} (hne : s ≠ [])
    (hlast : s.getLast? = some ';') : s = s.dropLast ++ [';'] := by
  have h1 : s.dropLast ++ [s.getLast hne] = s := List.dropLast_append_getLast hne
  have h2 : s.getLast hne = ';' := by
    have h3 := List.getLast?_eq_getLast s hne
    rw [h3] at hlast
    exact Option.some.inj hlast
  calc s = s.dropLast ++ [s.getLast hne] := h1.symm
    _ = s.dropLast ++ [';'] := by rw [h2]

theorem parseSQLFileStep_wf (acc : List (List Char)) (s : List Char)
    (h : wellFormedStmt s) :
    parseSQLFileStep (acc, []) s = (acc ++ [s], []) := by
  obtain ⟨hne, htrim, hnl, hc1, hc2, hc3, hq1, hq2, hq3, hbc, hbne, hsemi, hlast⟩ := h
  simp only [parseSQLFileStep, htrim]
  rw [if_neg ?hskip]
  case hskip =>
    simp [List.isEmpty_iff, hne, List.isPrefixOf_iff_prefix, hc1, hc2]
  rw [if_pos ?hsfx]
  case hsfx =>
    rw [List.isSuffixOf_iff_suffix]
    exact ⟨s.dropLast, (eq_dropLast_append_last hne hlast).symm⟩
  rw [List.nil_append, trim_append_newline s htrim,
    if_neg (by simp [List.isEmpty_iff, hne])]

theorem parseSQLFile_foldA (stmts : List (List Char)) (acc : List (List Char))
    (h : ∀ s ∈ stmts, wellFormedStmt s) :
    stmts.foldl parseSQLFileStep (acc, []) = (acc ++ stmts, []) := by
  induction stmts generalizing acc with
  | nil => simp
  | cons s rest ih =>
    rw [List.foldl_cons, parseSQLFileStep_wf acc s (h s (by simp))]
    rw [ih (acc ++ [s]) (fun x hx => h x (by simp [hx]))]
    simp

theorem parseSQLFileA_left_inverse (stmts : List (List Char))
    (h : ∀ s ∈ stmts, wellFormedStmt s) :
    parseSQLFile (joinWithNewline stmts) = stmts := by
  rcases hst : stmts with _ | ⟨s, rest⟩
  · decide
  · rw [← hst]
    have hne : stmts ≠ [] := by rw [hst]; simp
    simp only [parseSQLFile]
    rw [splitOnNL_join stmts hne (fun x hx => (h x hx).2.2.1)]
    rw [parseSQLFile_foldA stmts [] h]
    simp
    decide

/-- Characters the quote-aware scanner passes through untouched: not a
string-literal opener and not a statement terminator. -/
def plainChar (c : Char) : Prop :=
  c ≠ '"' ∧ c ≠ '\'' ∧ c ≠ Char.ofNat 96 ∧ c ≠ ';'

/-- The `line[i-1]` value after scanning `body` (starting from `prev`). -/
def lastPrev (prev : Option Char) : List Char → Option Char
  | [] => prev
  | c :: rest => lastPrev (some c) rest

theorem d1Chars_plain_then (body : List Char) :
    ∀ (rest : List Char) (stm : List (List Char)) (cur : List Char) (sc : Char)
      (prev : Option Char), (∀ c ∈ body, plainChar c) →
    d1Chars ⟨stm, cur, false, sc, false⟩ prev (body ++ rest)
      = d1Chars ⟨stm, cur ++ body, false, sc, false⟩ (lastPrev prev body) rest := by
  induction body with
  | nil =>
    intro rest stm cur sc prev h
    simp [lastPrev]
  | cons c body' ih =>
    intro rest stm cur sc prev h
    have hc := h c (by simp)
    rw [List.cons_append, d1Chars]
    have hstep : d1Step ⟨stm, cur, false, sc, false⟩ prev c
        = ⟨stm, cur ++ [c], false, sc, false⟩ := by
      simp only [d1Step]
      rw [if_pos trivial, if_neg (by simp [hc.1, hc.2.1, hc.2.2.1]), if_neg hc.2.2.2]
    rw [hstep, ih rest stm (cur ++ [c]) sc (some c) (fun x hx => h x (by simp [hx]))]
    have ha : (cur ++ [c]) ++ body' = cur ++ c :: body' := by simp
    rw [ha]
    rfl

theorem trim_ws_append (cur b : List Char) (hcur : trimLeft cur = []) :
    trim (cur ++ b) = trim b := by
  show trimRight (trimLeft (cur ++ b)) = trimRight (trimLeft b)
  rw [trimLeft_append, if_pos hcur]

theorem head_not_ws {s : List Char} (htrim : trim s = s) :
    ∀ c cs, s = c :: cs → isJSWhitespace c = false := by
  intro c cs hs
  rcases trim_eq_self s htrim with ⟨hL, -⟩
  rw [hs] at hL
  by_contra hws
  rw [Bool.not_eq_false] at hws
  rw [trimLeft, if_pos hws] at hL
  have h1 := congrArg List.length hL
  have h2 := (trimLeft_suffix cs).length_le
  simp at h1
  omega

theorem trim_ne_nil_of_head {c : Char} {cs : List Char}
    (hc : isJSWhitespace c = false) : trim (c :: cs) ≠ [] := by
  show trimRight (trimLeft (c :: cs)) ≠ []
  rw [trimLeft, if_neg (by simp [hc])]
  intro h0
  have h1 : trimLeft (c :: cs).reverse = [] := by
    have := congrArg List.reverse h0
    simpa [trimRight] using this
  have hall := (trimLeft_eq_nil_iff _).mp h1
  have := hall c (by simp)
  rw [this] at hc
  simp at hc

theorem trim_dropLast_ne_nil {s : List Char} (h : wellFormedStmt s) :
    trim s.dropLast ≠ [] := by
  obtain ⟨hne, htrim, -, -, -, -, -, -, -, -, hbne, -, hlast⟩ := h
  rcases hb : s.dropLast with _ | ⟨c, cs⟩
  · exact absurd hb hbne
  · have hcs : s = c :: (cs ++ [';']) := by
      have hd := eq_dropLast_append_last hne hlast
      rw [hd, hb]
      simp
    have hcw : isJSWhitespace c = false := head_not_ws htrim _ _ hcs
    exact trim_ne_nil_of_head hcw

theorem d1Step_semi (stm : List (List Char)) (cur : List Char) (sc : Char)
    (prev : Option Char) (hcur : trim cur ≠ []) :
    d1Step ⟨stm, cur, false, sc, false⟩ prev ';'
      = ⟨stm ++ [trim cur], [], false, sc, false⟩ := by
  have hemp : (trim cur).isEmpty = false := by
    rcases htc : trim cur with _ | ⟨a, t⟩
    · exact absurd htc hcur
    · rfl
  simp only [d1Step]
  rw [if_pos trivial, if_neg (by decide), if_pos trivial, if_pos hemp]

theorem d1Line_wf (s : List Char) (h : wellFormedStmt s)
    (stm : List (List Char)) (cur : List Char) (hcur : trimLeft cur = []) :
    d1Line ⟨stm, cur, false, Char.ofNat 0, false⟩ s
      = ⟨stm ++ [trim s.dropLast], [' '], false, Char.ofNat 0, false⟩ := by
  have hdne := trim_dropLast_ne_nil h
  obtain ⟨hne, htrim, hnl, hc1, hc2, hc3, hq1, hq2, hq3, hbc, hbne, hsemi, hlast⟩ := h
  simp only [d1Line, htrim]
  rw [if_neg (by simp [List.isEmpty_iff, hne])]
  rw [if_neg (by simp [List.isPrefixOf_iff_prefix, hc1, hc3])]
  have hbc2 : includesSub s ['/', '*'] = false := hbc
  simp only [hbc2, Bool.false_eq_true, if_false]
  set b := s.dropLast with hb
  have hdec : s = b ++ [';'] := by
    rw [hb]
    exact eq_dropLast_append_last hne hlast
  have hplain : ∀ x ∈ b, plainChar x := by
    intro x hx
    have hxs : x ∈ s := by
      rw [hdec]
      exact List.mem_append_left _ hx
    exact ⟨fun h0 => hq1 (h0 ▸ hxs), fun h0 => hq2 (h0 ▸ hxs),
      fun h0 => hq3 (h0 ▸ hxs), fun h0 => hsemi (h0 ▸ hx)⟩
  rw [hdec, d1Chars_plain_then b [';'] stm cur (Char.ofNat 0) none hplain]
  rw [d1Chars, d1Chars]
  have htcb : trim (cur ++ b) ≠ [] := by
    rw [trim_ws_append cur b hcur]
    exact hdne
  rw [d1Step_semi stm (cur ++ b) (Char.ofNat 0) (lastPrev none b) htcb]
  rw [trim_ws_append cur b hcur]
  rfl

theorem d1Line_fold (stmts : List (List Char)) :
    ∀ (stm : List (List Char)) (cur : List Char), trimLeft cur = [] →
    (∀ s ∈ stmts, wellFormedStmt s) →
    ∃ cur', trimLeft cur' = [] ∧
      stmts.foldl d1Line ⟨stm, cur, false, Char.ofNat 0, false⟩
        = ⟨stm ++ stmts.map (fun s => trim s.dropLast), cur',
           false, Char.ofNat 0, false⟩ := by
  induction stmts with
  | nil =>
    intro stm cur hcur h
    exact ⟨cur, hcur, by simp⟩
  | cons s rest ih =>
    intro stm cur hcur h
    rw [List.foldl_cons, d1Line_wf s (h s (by simp)) stm cur hcur]
    rcases ih (stm ++ [trim s.dropLast]) [' '] (by decide)
      (fun x hx => h x (by simp [hx])) with ⟨cur', hcur', heq⟩
    refine ⟨cur', hcur', ?_⟩
    rw [heq]
    simp

/-- C2 (amended): for every list of well-formed statements, the driver's
line-level `parseSQLFile` is a left inverse of joining with newlines; the
quote-aware character-level `parseSQLFile` of the D1 API client returns the
same statements in order and count, but with each statement's terminating
semicolon removed (the trimmed statement body), so only the line-level
variant is a left inverse. -/
theorem parseSQLFile_left_inverse_amended (stmts : List (List Char))
    (h : ∀ s ∈ stmts, wellFormedStmt s) :
    parseSQLFile (joinWithNewline stmts) = stmts ∧
    CloudflareD1API.parseSQLFile (joinWithNewline stmts)
      = stmts.map (fun s => trim s.dropLast) := by
  refine ⟨parseSQLFileA_left_inverse stmts h, ?_⟩
  rcases hst : stmts with _ | ⟨s0, rest⟩
  · decide
  · rw [← hst]
    have hne : stmts ≠ [] := by
      rw [hst]
      simp
    simp only [CloudflareD1API.parseSQLFile]
    rw [splitOnNL_join stmts hne (fun x hx => (h x hx).2.2.1)]
    rcases d1Line_fold stmts [] [] rfl h with ⟨cur', hcur', heq⟩
    rw [heq]
    have htr : trim cur' = [] := by
      show trimRight (trimLeft cur') = []
      rw [hcur']
      rfl
    rw [if_neg (by simp [htr])]
    rw [List.nil_append]
    rw [List.filter_eq_self.mpr ?_]
    intro a ha
    rcases List.mem_map.mp ha with ⟨x, hx, hax⟩
    have hne2 : trim x.dropLast ≠ [] := trim_dropLast_ne_nil (h x hx)
    rw [← hax]
    simp [List.length_pos, hne2]

/-- Witness for C2 (amended) at a concrete one-statement stream. -/
theorem parseSQLFile_left_inverse_amended_witness :
    parseSQLFile (joinWithNewline ["INSERT INTO t VALUES (1);".data])
      = ["INSERT INTO t VALUES (1);".data] :=
  (parseSQLFile_left_inverse_amended ["INSERT INTO t VALUES (1);".data]
    (by decide)).1

/-! ## Statement Generator (`generateSQLFile` in `src/mysql-to-sqlite.js`)

Catalog metadata is the driver's `DESCRIBE` row shape; row values are
`JSValue`s keyed by column name in `Object.keys` order.  The per-table row
fetch (`SELECT *`) either yields the rows or throws; the `catch` logs the
error and `continue`s. -/

/-- One `DESCRIBE` row (the fields the generator reads).  `Type` is a Lean
keyword, hence `colType`. -/
structure ColumnMeta where
  Field : List Char
  colType : List Char
  Null : List Char
  Key : List Char
  Extra : Option (List Char)
  Default : Option (List Char)
deriving DecidableEq

/-- One foreign key as returned by `getForeignKeys` (rules already
defaulted to NO ACTION there). -/
structure ForeignKey where
  column : List Char
  refTable : List Char
  refColumn : List Char
  onUpdate : List Char
  onDelete : List Char
deriving DecidableEq

/-- One fetched row: ordered column-name/value pairs. -/
def Row : Type := List (List Char × JSValue)

/-- One source table as seen by `generateSQLFile`: its `DESCRIBE` output,
its foreign keys, and the outcome of `SELECT *` (an `error` carries the
thrown message). -/
structure TableData where
  name : List Char
  columns : List ColumnMeta
  foreignKeys : List ForeignKey
  rowsResult : Except (List Char) (List Row)

/-- `replace(/\s+/g, ' ')`: collapse every whitespace run to one space. -/
def collapseWS : List Char → List Char
  | [] => []
  | c :: cs =>
    if isJSWhitespace c then ' ' :: collapseWS (trimLeft cs)
    else c :: collapseWS cs
termination_by l => l.length
decreasing_by
  · have := (trimLeft_suffix cs).length_le
    simp only [List.length_cons]
    omega
  · simp

/-- The `defaultValue` computation of the schema loop (lines 223-237 of
`src/mysql-to-sqlite.js`); `mappedType` is `mapMySQLTypeToSQLite(col.Type)`. -/
def defaultClause (field : List Char) (mappedType : List Char)
    (default : Option (List Char)) : List Char :=
  match default with
  | none => []
  | some d =>
    if includesSub d "CURRENT_TIMESTAMP".data then
      if includesSub (toLowerStr field) "update".data then []
      else "DEFAULT (datetime('now'))".data
    else if mappedType = "TEXT".data then
      "DEFAULT ".data ++ escapeForSQLite (.str d)
    else
      "DEFAULT ".data ++ d

/-- One column clause: the interpolated template, trimmed, whitespace runs
collapsed. -/
def columnDefinition (col : ColumnMeta) : List Char :=
  let type := mapMySQLTypeToSQLite col.colType
  let nullable := if col.Null = "YES".data then [] else "NOT NULL".data
  let primaryKey := if col.Key = "PRI".data then "PRIMARY KEY".data else []
  let autoIncrement :=
    match col.Extra with
    | some e => if includesSub e "auto_increment".data then "AUTOINCREMENT".data else []
    | none => []
  let defaultValue := defaultClause col.Field type col.Default
  collapseWS (trim ("\"".data ++ col.Field ++ "\" ".data ++ type ++ " ".data
    ++ nullable ++ " ".data ++ primaryKey ++ " ".data ++ autoIncrement
    ++ " ".data ++ defaultValue))

/-- One FOREIGN KEY clause. -/
def foreignKeyClause (fk : ForeignKey) : List Char :=
  "FOREIGN KEY(\"".data ++ fk.column ++ "\") REFERENCES \"".data ++ fk.refTable
    ++ "\"(\"".data ++ fk.refColumn ++ "\") ON DELETE ".data ++ fk.onDelete
    ++ " ON UPDATE ".data ++ fk.onUpdate

/-- `columnDefinitions.join(',\n  ')`. -/
def joinCommaNL : List (List Char) → List Char
  | [] => []
  | [x] => x
  | x :: rest => x ++ ",\n  ".data ++ joinCommaNL rest

/-- `values.join(', ')` / `columns.join(', ')`. -/
def joinCommaSpace : List (List Char) → List Char
  | [] => []
  | [x] => x
  | x :: rest => x ++ ", ".data ++ joinCommaSpace rest

/-- The `CREATE TABLE IF NOT EXISTS` statement of one table. -/
def createTableSQL (t : TableData) : List Char :=
  "CREATE TABLE IF NOT EXISTS \"".data ++ t.name ++ "\" (\n  ".data
    ++ joinCommaNL (t.columns.map columnDefinition
        ++ t.foreignKeys.map foreignKeyClause)
    ++ "\n);".data

/-- `formatMySQLDateTime(value)`.  Over `JSValue` every branch reduces to
`escapeForSQLite` (native `Date` objects, the only case formatted
differently, do not occur in the embedding: the driver hands datetime values
over as strings). -/
def formatMySQLDateTime (value : JSValue) : List Char :=
  match value with
  | .null => "NULL".data
  | v => escapeForSQLite v

/-- The per-value encoding of the insert loop (lines 273-304): NULL check,
then type-specific handling driven by the column's metadata. -/
def valueForColumn (columnsMeta : List ColumnMeta) (col : List Char)
    (value : JSValue) : List Char :=
  if value = .null then "NULL".data
  else
    match columnsMeta.find? (fun c => c.Field == col) with
    | some columnMeta =>
      let colType := toLowerStr columnMeta.colType
      if includesSub colType "datetime".data || includesSub colType "timestamp".data then
        formatMySQLDateTime value
      else if includesSub colType "date".data && !(includesSub colType "datetime".data) then
        escapeForSQLite value
      else if includesSub colType "time".data && !(includesSub colType "datetime".data)
          && !(includesSub colType "timestamp".data) then
        escapeForSQLite value
      else
        escapeForSQLite value
    | none => escapeForSQLite value

/-- One INSERT statement for one row. -/
def insertSQL (tableName : List Char) (columnsMeta : List ColumnMeta)
    (row : Row) : List Char :=
  "INSERT INTO \"".data ++ tableName ++ "\" (".data
    ++ joinCommaSpace (row.map (fun p => "\"".data ++ p.1 ++ "\"".data))
    ++ ") VALUES (".data
    ++ joinCommaSpace (row.map (fun p => valueForColumn columnsMeta p.1 p.2))
    ++ ");".data

/-- The data loop body for one table: a failed row fetch logs an error and
contributes nothing (`continue`); an empty table contributes nothing; else
one INSERT per row.  Result: (statements, row count, error log). -/
def genTableInserts (t : TableData) : List (List Char) × Nat × List (List Char) :=
  match t.rowsResult with
  | .error e =>
    ([], 0, ["Error generating data for table ".data ++ t.name ++ ": ".data ++ e])
  | .ok rows =>
    if rows.isEmpty then ([], 0, [])
    else (rows.map (insertSQL t.name t.columns), rows.length, [])

/-- The data loop over all tables, accumulating statements, the running row
total and the error log in order. -/
def genAllInserts : List TableData → List (List Char) × Nat × List (List Char)
  | [] => ([], 0, [])
  | t :: rest =>
    let r := genTableInserts t
    let rs := genAllInserts rest
    (r.1 ++ rs.1, r.2.1 + rs.2.1, r.2.2 ++ rs.2.2)

/-- The full generated statement list: pragma, two header comments, one
CREATE TABLE per table, the inserts, and the trailing summary comment.
`timestamp` stands for `new Date().toISOString()`. -/
def generateSQLFileStatements (tables : List TableData)
    (timestamp : List Char) : List (List Char) :=
  ["PRAGMA foreign_keys = OFF;".data,
   "-- Generated from MySQL to SQLite migration".data,
   "-- Generated on: ".data ++ timestamp]
  ++ tables.map createTableSQL
  ++ (genAllInserts tables).1
  ++ ["-- Migration completed: ".data ++ (toString tables.length).data
      ++ " tables, ".data ++ (toString (genAllInserts tables).2.1).data
      ++ " rows".data]

/-- `generateSQLFile`'s return value: `sqlStatements.length`. -/
def generateSQLFile (tables : List TableData) (timestamp : List Char) : Nat :=
  (generateSQLFileStatements tables timestamp).length

theorem genAllInserts_append (a b : List TableData) :
    (genAllInserts (a ++ b)).1 = (genAllInserts a).1 ++ (genAllInserts b).1 ∧
    (genAllInserts (a ++ b)).2.1 = (genAllInserts a).2.1 + (genAllInserts b).2.1 ∧
    (genAllInserts (a ++ b)).2.2 = (genAllInserts a).2.2 ++ (genAllInserts b).2.2 := by
  induction a with
  | nil => simp [genAllInserts]
  | cons t rest ih =>
    simp only [List.cons_append, genAllInserts, List.append_eq]
    refine ⟨?_, ?_, ?_⟩
    · rw [ih.1]
      simp
    · rw [ih.2.1]
      omega
    · rw [ih.2.2]
      simp

/-- C6: a table whose row fetch fails contributes no insert statements and
no rows, the surrounding tables are processed exactly as they would be on
their own (earlier statements unaffected, later tables still generated),
and the failure is surfaced in the run's error log. -/
theorem generateSQLFile_row_fetch_failure (pre post : List TableData)
    (t : TableData) (e : List Char) (he : t.rowsResult = .error e) :
    (genAllInserts (pre ++ t :: post)).1
      = (genAllInserts pre).1 ++ (genAllInserts post).1 ∧
    (genAllInserts (pre ++ t :: post)).2.1
      = (genAllInserts pre).2.1 + (genAllInserts post).2.1 ∧
    (genAllInserts (pre ++ t :: post)).2.2
      = (genAllInserts pre).2.2
        ++ ("Error generating data for table ".data ++ t.name ++ ": ".data ++ e)
          :: (genAllInserts post).2.2 := by
  have hT : genTableInserts t
      = ([], 0, ["Error generating data for table ".data ++ t.name ++ ": ".data ++ e]) := by
    simp [genTableInserts, he]
  have happ := genAllInserts_append pre (t :: post)
  have hcons1 : (genAllInserts (t :: post)).1 = (genAllInserts post).1 := by
    simp [genAllInserts, hT]
  have hcons2 : (genAllInserts (t :: post)).2.1 = (genAllInserts post).2.1 := by
    simp [genAllInserts, hT]
  have hcons3 : (genAllInserts (t :: post)).2.2
      = ("Error generating data for table ".data ++ t.name ++ ": ".data ++ e)
        :: (genAllInserts post).2.2 := by
    simp [genAllInserts, hT]
  exact ⟨by rw [happ.1, hcons1], by rw [happ.2.1, hcons2], by rw [happ.2.2, hcons3]⟩

/-- Witness for C6 at one failing table between two successfully fetched
tables. -/
theorem generateSQLFile_row_fetch_failure_witness :
    (genAllInserts ([⟨"a".data, [], [], Except.ok [[("x".data, JSValue.num 1)]]⟩]
        ++ (⟨"bad".data, [], [], Except.error "boom".data⟩ : TableData)
        :: [⟨"b".data, [], [], Except.ok [[("y".data, JSValue.num 2)]]⟩])).1
      = (genAllInserts [⟨"a".data, [], [], Except.ok [[("x".data, JSValue.num 1)]]⟩]).1
        ++ (genAllInserts [⟨"b".data, [], [], Except.ok [[("y".data, JSValue.num 2)]]⟩]).1 :=
  (generateSQLFile_row_fetch_failure
    [⟨"a".data, [], [], Except.ok [[("x".data, JSValue.num 1)]]⟩]
    [⟨"b".data, [], [], Except.ok [[("y".data, JSValue.num 2)]]⟩]
    ⟨"bad".data, [], [], Except.error "boom".data⟩ "boom".data rfl).1

/-- C8: when a raw column default holds the CURRENT_TIMESTAMP marker, a
column whose name contains "update" (case-insensitively) gets no DEFAULT
clause, and any other column gets DEFAULT (datetime('now')). -/
theorem defaultClause_current_timestamp (field mappedType d : List Char)
    (hd : includesSub d "CURRENT_TIMESTAMP".data = true) :
    (includesSub (toLowerStr field) "update".data = true →
      defaultClause field mappedType (some d) = []) ∧
    (includesSub (toLowerStr field) "update".data = false →
      defaultClause field mappedType (some d) = "DEFAULT (datetime('now'))".data) := by
  constructor <;> intro hu <;> simp [defaultClause, hd, hu]

/-- Witness for C8 at an update-tracking and a creation-tracking column. -/
theorem defaultClause_current_timestamp_witness :
    defaultClause "updated_at".data "TEXT".data (some "CURRENT_TIMESTAMP".data) = [] ∧
    defaultClause "created_at".data "TEXT".data (some "CURRENT_TIMESTAMP".data)
      = "DEFAULT (datetime('now'))".data :=
  ⟨(defaultClause_current_timestamp "updated_at".data "TEXT".data
      "CURRENT_TIMESTAMP".data (by decide)).1 (by decide),
   (defaultClause_current_timestamp "created_at".data "TEXT".data
      "CURRENT_TIMESTAMP".data (by decide)).2 (by decide)⟩

/-- C9: the generator always emits the pragma, the two header comments and
the trailing summary comment, so the statement count it returns is at least
4 in every run that returns — the caller's zero-count fatal branch is
unreachable. -/
theorem generateSQLFile_count_ge_four (tables : List TableData)
    (timestamp : List Char) :
    4 ≤ generateSQLFile tables timestamp ∧ generateSQLFile tables timestamp ≠ 0 := by
  have h : generateSQLFile tables timestamp
      = 3 + ((tables.map createTableSQL).length + (genAllInserts tables).1.length + 1) := by
    simp [generateSQLFile, generateSQLFileStatements]
    omega
  omega

/-! ## Staged-import polling (`pollImport` in `src/test-d1-connection.js`)

`while (true)` polls the import endpoint; the status is
`result.status || result.state || 'pending'` (JS falsy = empty string);
"completed" breaks, "failed" exits the process, anything else sleeps 5000 ms
and polls again.  The loop is modelled with observation fuel: `none` means
it is still running after `fuel` polls — with no other exit condition in the
code, that holds for every fuel when no terminal status ever arrives. -/

/-- One poll response: HTTP-level success flag plus the `result.status` and
`result.state` fields; an absent field is the empty string (JS falsy). -/
structure PollResponse where
  success : Bool
  status : List Char
  state : List Char

/-- `res.data.result.status || res.data.result.state || 'pending'`. -/
def pollStatus (r : PollResponse) : List Char :=
  if r.status.isEmpty = false then r.status
  else if r.state.isEmpty = false then r.state
  else "pending".data

/-- How one run of `pollImport` ends: the loop breaks ("completed"), the
process exits ("failed"), or the `!success` throw fires. -/
inductive PollOutcome where
  | completed : PollOutcome
  | failed : PollOutcome
  | error : PollOutcome
deriving DecidableEq

/-- The polling loop observed for at most `fuel` iterations starting at poll
number `i`; each recursive step stands for one `pollIntervalMs` sleep. -/
def pollImport (responses : Nat → PollResponse) (i fuel : Nat) : Option PollOutcome :=
  match fuel with
  | 0 => none
  | fuel' + 1 =>
    let r := responses i
    if r.success = false then some .error
    else if pollStatus r = "completed".data then some .completed
    else if pollStatus r = "failed".data then some .failed
    else pollImport responses (i + 1) fuel'

/-- The fixed sleep between polls, `setTimeout(r, 5000)`; the loop has no
iteration bound and no elapsed-time check. -/
def pollIntervalMs : Nat := 5000

theorem pollImport_completed_from (responses : Nat → PollResponse) (n : Nat) :
    ∀ i, pollImport responses i n = some .completed →
      ∃ k, i ≤ k ∧ k < i + n ∧ pollStatus (responses k) = "completed".data := by
  induction n with
  | zero =>
    intro i h
    simp [pollImport] at h
  | succ n ih =>
    intro i h
    simp only [pollImport] at h
    by_cases hs : (responses i).success = false
    · rw [if_pos hs] at h
      simp at h
    · rw [if_neg hs] at h
      by_cases hc : pollStatus (responses i) = "completed".data
      · exact ⟨i, Nat.le_refl i, by omega, hc⟩
      · rw [if_neg hc] at h
        by_cases hf : pollStatus (responses i) = "failed".data
        · rw [if_pos hf] at h
          simp at h
        · rw [if_neg hf] at h
          rcases ih (i + 1) h with ⟨k, h1, h2, h3⟩
          exact ⟨k, by omega, by omega, h3⟩

theorem pollImport_failed_from (responses : Nat → PollResponse) (k : Nat)
    (hks : (responses k).success = true)
    (hkf : pollStatus (responses k) = "failed".data) :
    ∀ n i, i ≤ k → k < i + n →
      (∀ j, i ≤ j → j < k → (responses j).success = true ∧
        pollStatus (responses j) ≠ "completed".data ∧
        pollStatus (responses j) ≠ "failed".data) →
      pollImport responses i n = some .failed := by
  intro n
  induction n with
  | zero =>
    intro i h1 h2 h3
    omega
  | succ n ih =>
    intro i h1 h2 h3
    simp only [pollImport]
    rcases Nat.eq_or_lt_of_le h1 with heq | hlt
    · subst heq
      rw [if_neg (by simp [hks]), if_neg (by rw [hkf]; decide), if_pos hkf]
    · have hj := h3 i (Nat.le_refl i) hlt
      rw [if_neg (by simp [hj.1]), if_neg hj.2.1, if_neg hj.2.2]
      exact ih (i + 1) hlt (by omega) (fun j hj1 hj2 => h3 j (by omega) hj2)

theorem pollImport_nonterminal_from (responses : Nat → PollResponse)
    (h : ∀ k, (responses k).success = true ∧
      pollStatus (responses k) ≠ "completed".data ∧
      pollStatus (responses k) ≠ "failed".data) :
    ∀ n i, pollImport responses i n = none := by
  intro n
  induction n with
  | zero =>
    intro i
    rfl
  | succ n ih =>
    intro i
    simp only [pollImport]
    rw [if_neg (by simp [(h i).1]), if_neg (h i).2.1, if_neg (h i).2.2]
    exact ih (i + 1)

/-- C7: the polling loop terminates successfully only when some poll
response reports status "completed"; a first terminal "failed" response
makes the whole run end as a hard abort; and when every response is
non-terminal the loop is still running after any number of fixed 5-second
sleeps — there is no built-in timeout. -/
theorem pollImport_spec (responses : Nat → PollResponse) :
    (∀ n, pollImport responses 0 n = some .completed →
      ∃ k, k < n ∧ pollStatus (responses k) = "completed".data) ∧
    (∀ k n, (responses k).success = true →
      pollStatus (responses k) = "failed".data →
      (∀ j, j < k → (responses j).success = true ∧
        pollStatus (responses j) ≠ "completed".data ∧
        pollStatus (responses j) ≠ "failed".data) →
      k < n → pollImport responses 0 n = some .failed) ∧
    ((∀ k, (responses k).success = true ∧
        pollStatus (responses k) ≠ "completed".data ∧
        pollStatus (responses k) ≠ "failed".data) →
      ∀ n, pollImport responses 0 n = none) ∧
    pollIntervalMs = 5000 := by
  refine ⟨?_, ?_, ?_, rfl⟩
  · intro n h
    rcases pollImport_completed_from responses n 0 h with ⟨k, -, h2, h3⟩
    exact ⟨k, by omega, h3⟩
  · intro k n hks hkf hj hkn
    exact pollImport_failed_from responses k hks hkf n 0 (by omega) (by omega)
      (fun j _ hj2 => hj j hj2)
  · intro h n
    exact pollImport_nonterminal_from responses h n 0

/-- A concrete response sequence: one pending poll, then completed. -/
def pollRespW : Nat → PollResponse
  | 0 => ⟨true, [], []⟩
  | _ => ⟨true, "completed".data, []⟩

/-- Witness for C7 on the concrete sequence: two observed polls end in a
reported "completed". -/
theorem pollImport_spec_witness :
    ∃ k, k < 2 ∧ pollStatus (pollRespW k) = "completed".data :=
  (pollImport_spec pollRespW).1 2 (by decide)

end Mig
